import Mathlib

/-!
Verification development for the JWST association matching engine
(jwst/associations/association.py and its collaborators).

The shallow embedding below translates the code of
src/jwst/associations/association.py into Lean definitions.  The
constraint-tree module (jwst/associations/lib/constraint.py) is not part
of the available sources; the definitions that stand in for it are marked
with doc comments starting with Modelled from the spec.
-/

set_option maxRecDepth 4096

/-- An item is one exposure metadata record: a mapping from attribute
name to string value, represented as an association list.  Items are
read-only inputs of the engine. -/
abbrev Item := List (String × String)

/-- Look up an attribute of an item; mirrors Python dictionary access
returning the first matching key. -/
def itemLookup (item : Item) (key : String) : Option String :=
  (item.find? (fun kv => kv.1 == key)).map (fun kv => kv.2)

/-- Python set.add on a list-backed set of strings: insert the value if
it is not already present. -/
def setInsert (v : String) (l : List String) : List String :=
  if v ∈ l then l else l ++ [v]

/-- One character of Python re.escape: ASCII alphanumerics and the
underscore are kept, every other character is preceded by a backslash
(the behaviour of re.escape used at association.py line 449). -/
def escapeChar (c : Char) : List Char :=
  if c.isAlphanum || c == '_' then [c] else ['\\', c]

/-- re.escape over a list of characters. -/
def escapeList : List Char → List Char
  | [] => []
  | c :: rest => escapeChar c ++ escapeList rest

/-- Python re.escape: escape a string so that it matches itself
literally as a regular expression. -/
def reEscape (s : String) : String :=
  ⟨escapeList s.data⟩

/-- Inverse of escapeList, used to show that escaping is injective. -/
def unescapeList : List Char → Option (List Char)
  | [] => some []
  | c :: rest =>
    if c = '\\' then
      match rest with
      | [] => none
      | c2 :: rest2 => (unescapeList rest2).map (fun t => c2 :: t)
    else
      (unescapeList rest).map (fun t => c :: t)

/-- Association.DEFAULT_FORCE_UNIQUE (association.py line 58). -/
def DEFAULT_FORCE_UNIQUE : Bool := false

/-- Modelled from the spec: meets_conditions from
jwst/associations/lib/constraint.py is not in the sources.  Per the
spec, a bound expected value is a literal-match pattern produced by
escaping the first matched value, and a match succeeds iff the resolved
value matches that pattern; for literal patterns that is equality of the
escaped resolved value with the stored pattern. -/
def meetsConditions (evaledStr : String) (pattern : String) : Bool :=
  reEscape evaledStr == pattern

/-- A reprocessing request (ProcessList) as manipulated by
Association.check_and_set_constraints: the trigger_rules set and the
rules list, with rules identified by rule name. -/
structure Reprocess where
  trigger_rules : List String
  rules : Option (List String)
deriving DecidableEq, Repr

/-- The per-process-list update performed by
Association.check_and_set_constraints (association.py lines 415-418):
add this rule to trigger_rules and default rules to this rule. -/
def updateReprocess (rule : String) (p : Reprocess) : Reprocess :=
  let p1 : Reprocess :=
    { p with trigger_rules :=
        if rule ∈ p.trigger_rules then p.trigger_rules else p.trigger_rules ++ [rule] }
  match p1.rules with
  | none => { p1 with rules := some [rule] }
  | some _ => p1

/-- The conditions dictionary consumed by Association.match_constraint:
an inputs function resolving the item to a string, the expected value
(None when unbound), the set of found values, and the optional
force_unique entry (absent is modelled as none and read through
DEFAULT_FORCE_UNIQUE, as in conditions.get). -/
structure Conditions where
  inputs : Item → String
  value : Option String
  found_values : List String
  force_unique : Option Bool

/-- Association.match_constraint (association.py lines 422-456),
translated clause by clause: evaluate the inputs function; when the
expected value is bound and the evaluated string does not meet it,
fail; otherwise record the escaped value in found_values and, when the
expected value is unbound or force_unique holds, bind the expected value
to the escaped string and clear force_unique. -/
def matchConstraint (conditions : Conditions) (item : Item) :
    Bool × List Reprocess × Conditions :=
  let reprocess : List Reprocess := []
  let evaledStr := conditions.inputs item
  let failed : Bool :=
    match conditions.value with
    | some v => !(meetsConditions evaledStr v)
    | none => false
  if failed then
    (false, reprocess, conditions)
  else
    let escapedValue := reEscape evaledStr
    let c1 : Conditions :=
      { conditions with found_values := setInsert escapedValue conditions.found_values }
    if c1.value.isNone || c1.force_unique.getD DEFAULT_FORCE_UNIQUE then
      (true, reprocess, { c1 with value := some escapedValue, force_unique := some false })
    else
      (true, reprocess, c1)

/-- A constraint value: string values carry attribute patterns, boolean
values appear on simple constraints such as force_match (Python values
are duck typed; these are the two kinds the rules use). -/
inductive CVal where
  | str (s : String)
  | bool (b : Bool)
deriving DecidableEq, Repr

/-- Python truthiness of a constraint value, as applied by callers of
Association.add to the returned match result. -/
def CVal.truthy : CVal → Bool
  | .str s => s ≠ ""
  | .bool b => b

/-- Modelled from the spec: the reduce operators of a composite
constraint (spec section 4.2); constraint.py is not in the sources. -/
inductive ReduceOp where
  | all
  | any
  | notany
  | notall
deriving DecidableEq, Repr

/-- Apply a reduce operator to the vector of child results. -/
def ReduceOp.apply (op : ReduceOp) (bs : List Bool) : Bool :=
  match op with
  | .all => bs.all id
  | .any => bs.any id
  | .notany => !(bs.any id)
  | .notall => !(bs.all id)

/-- Modelled from the spec: an attribute constraint node
(DMSAttrConstraint; constraint.py is not in the sources): a label, the
ordered candidate attribute names, the expected value (none when
unbound), the required flag, the optional force_unique entry and the
set of found values, exactly the conditions structure consumed by
Association.match_constraint. -/
structure AttrNode where
  name : Option String
  sources : List String
  value : Option String
  required : Bool
  force_unique : Option Bool
  found_values : List String
deriving DecidableEq, Repr

/-- Modelled from the spec: resolve a candidate value by scanning the
sources in order; the first attribute present in the item wins (spec
section 4.1). -/
def resolveSources (sources : List String) (item : Item) : Option String :=
  (sources.filterMap (fun s => itemLookup item s)).head?

/-- Modelled from the spec: evaluation of an attribute constraint node.
When no source is present the node passes vacuously iff it is not
required (spec section 4.1); otherwise the comparison and binding are
exactly Association.match_constraint applied to the node state with the
resolved value. -/
def AttrNode.check (n : AttrNode) (item : Item) : Bool × List Reprocess × AttrNode :=
  match resolveSources n.sources item with
  | none => (!n.required, [], n)
  | some v =>
    let conds : Conditions :=
      { inputs := fun _ => v, value := n.value,
        found_values := n.found_values, force_unique := n.force_unique }
    let r := matchConstraint conds item
    (r.1, r.2.1,
      { n with value := r.2.2.value, found_values := r.2.2.found_values,
               force_unique := r.2.2.force_unique })

mutual
/-- Modelled from the spec: the constraint tree (constraint.py is not in
the sources).  Leaves are attribute constraints or simple constraints; a
simple constraint carries a label, its current value, the value its
sources function produces for an item, and the result of its test
function; composites combine an ordered forest of children with a
reduce operator. -/
inductive CTree where
  | attr (n : AttrNode)
  | simple (name : Option String) (value : Option CVal) (sourceVal : CVal)
      (testResult : Bool)
  | comp (children : CForest) (op : ReduceOp)

/-- An ordered forest of constraint trees. -/
inductive CForest where
  | nil
  | cons (head : CTree) (tail : CForest)
end

/-- Build a forest from a list of trees. -/
def CForest.ofList : List CTree → CForest
  | [] => .nil
  | t :: rest => .cons t (CForest.ofList rest)

mutual
/-- Modelled from the spec: Constraint.check_and_set (constraint.py is
not in the sources).  Attribute nodes evaluate as AttrNode.check; a
simple constraint matches iff its test passes and then binds its value
from its sources when unbound; a composite evaluates every child
unconditionally and reduces the boolean results (spec sections 4.1 and
4.2, including the always-evaluate-all-children choice of section 9). -/
def CTree.checkAndSet : CTree → Item → Bool × List Reprocess × CTree
  | .attr n, item =>
    let r := n.check item
    (r.1, r.2.1, .attr r.2.2)
  | .simple nm v sv t, _item =>
    if t then (true, [], .simple nm (some (v.getD sv)) sv t)
    else (false, [], .simple nm v sv t)
  | .comp children op, item =>
    let r := CForest.checkAndSetF children item
    (op.apply r.1, r.2.1, .comp r.2.2 op)

/-- Evaluate every tree of a forest in order, collecting results,
reprocess requests and updated trees. -/
def CForest.checkAndSetF : CForest → Item → List Bool × List Reprocess × CForest
  | .nil, _ => ([], [], .nil)
  | .cons c rest, item =>
    let rc := c.checkAndSet item
    let rr := CForest.checkAndSetF rest item
    (rc.1 :: rr.1, rc.2.1 ++ rr.2.1, .cons rc.2.2 rr.2.2)
end

mutual
/-- Modelled from the spec: named lookup into a constraint tree, as used
by the subscript access self.constraints of association.py line 383; the
first node carrying the name wins. -/
def CTree.findByName : CTree → String → Option CTree
  | .attr n, nm => if n.name = some nm then some (.attr n) else none
  | .simple snm v sv t, nm => if snm = some nm then some (.simple snm v sv t) else none
  | .comp children op, nm =>
    match CForest.findByNameF children nm with
    | some t => some t
    | none =>
      -- composites carry no name of their own in this model
      match op with
      | _ => none

/-- Lookup over a forest, first match wins. -/
def CForest.findByNameF : CForest → String → Option CTree
  | .nil, _ => none
  | .cons c rest, nm =>
    match c.findByName nm with
    | some t => some t
    | none => CForest.findByNameF rest nm
end

/-- The value attribute of a constraint node, as read by
association.py line 383 (attribute values are string patterns, simple
constraint values are arbitrary; composites expose no value here). -/
def CTree.value : CTree → Option CVal
  | .attr n => n.value.map CVal.str
  | .simple _ v _ _ => v
  | .comp _ _ => none

/-- A member entry of an association product (expname, exptype). -/
structure Member where
  expname : String
  exptype : String
deriving DecidableEq, Repr

/-- A product of the association document: a name and its members. -/
structure Product where
  name : String
  members : List Member
deriving DecidableEq, Repr

/-- The association document (self.data) as set up by
Association.__init__ (association.py lines 96-103) plus the products
list manipulated when members are added. -/
structure AsnData where
  asn_type : String
  asn_rule : String
  version_id : Option String
  code_version : String
  products : List Product
deriving DecidableEq, Repr

/-- The Association state: the document, the run_init_hook flag
(association.py line 91), the accepted items (spec section 4.3: the
set of item identities of accepted members) and the constraint tree. -/
structure Association where
  data : AsnData
  run_init_hook : Bool
  accepted_items : List Item
  constraints : CTree

/-- Modelled from the spec: Association.is_item_member is abstract in
association.py (line 478, implemented per rule); per spec section 4.3 it
tests whether the item identity is among the accepted items. -/
def Association.is_item_member (a : Association) (item : Item) : Bool :=
  decide (item ∈ a.accepted_items)

/-- Association._init_hook of the base class (association.py line 496):
a no-op. -/
def Association._init_hook (a : Association) (_item : Item) : Association :=
  a

/-- Modelled from the spec: Association._add is abstract in
association.py (line 500, implemented per rule); per spec section 4.3
step 5 the accepted item is appended as a member of the first product
with its exposure name and type. -/
def addMemberToData (d : AsnData) (item : Item) : AsnData :=
  let mem : Member :=
    { expname := (itemLookup item "expname").getD "",
      exptype := (itemLookup item "exptype").getD "science" }
  match d.products with
  | [] => { d with products := [{ name := "", members := [mem] }] }
  | p :: rest => { d with products := { p with members := p.members ++ [mem] } :: rest }

/-- Modelled from the spec: the concrete _add merges the item into the
document and records its identity among the accepted items (spec
section 4.3 step 5). -/
def Association._add (a : Association) (item : Item) : Association :=
  { a with data := addMemberToData a.data item,
           accepted_items := a.accepted_items ++ [item] }

/-- The acceptance block of Association.add (association.py lines
374-378): run the init hook once, then add the item. -/
def Association.acceptItem (a : Association) (item : Item) : Association :=
  (if a.run_init_hook then { a._init_hook item with run_init_hook := false } else a)._add
    item

/-- Association.check_and_set_constraints (association.py lines
392-420): preserve the constraint state, evaluate, restore on a failed
match, and stamp this rule onto every reprocess request. -/
def Association.check_and_set_constraints (a : Association) (item : Item) :
    Bool × List Reprocess × Association :=
  let preserved := a.constraints
  let r := a.constraints.checkAndSet item
  let newTree := if r.1 then r.2.2 else preserved
  let reprocess := r.2.1.map (updateReprocess a.data.asn_rule)
  (r.1, reprocess, { a with constraints := newTree })

/-- The force_match override of Association.add (association.py lines
380-388): when a constraint named force_match exists and its value is
not None, the match result becomes that value (truthiness as applied by
the Python callers of add). -/
def forceOverride (t : CTree) (m : Bool) : Bool :=
  match (t.findByName "force_match").bind CTree.value with
  | none => m
  | some v => v.truthy

/-- Failure of Association.add: with check_constraints false the local
variable reprocess is never assigned and the final return raises
UnboundLocalError. -/
inductive AddError where
  | unboundLocalReprocess
deriving DecidableEq, Repr

/-- Association.add (association.py lines 347-390), translated line by
line: a member item returns (True, []) at once; with constraint
checking, evaluate and maybe accept, then apply the force_match
override and return with the reprocess list; without constraint
checking the item is merged, but the final return reads the unassigned
reprocess local and the call fails (the mutated state is abandoned with
the exception). -/
def Association.add (a : Association) (item : Item) (check_constraints : Bool) :
    Except AddError (Bool × List Reprocess × Association) :=
  if a.is_item_member item then .ok (true, [], a)
  else if check_constraints then
    let r := a.check_and_set_constraints item
    let a2 := if r.1 then (r.2.2).acceptItem item else r.2.2
    .ok (forceOverride a2.constraints r.1, r.2.1, a2)
  else
    .error .unboundLocalReprocess

/-- The match component of an add result, when the call returned. -/
def addResultMatch : Except AddError (Bool × List Reprocess × Association) → Option Bool
  | .ok (b, _, _) => some b
  | .error _ => none

/-- The association state component of an add result, when the call
returned. -/
def addResultAsn : Except AddError (Bool × List Reprocess × Association) → Option Association
  | .ok (_, _, a) => some a
  | .error _ => none

/-- Split a character list at slashes, the component structure of a
POSIX path as used by pathlib. -/
def splitSlash : List Char → List (List Char)
  | [] => [[]]
  | c :: rest =>
    let r := splitSlash rest
    if c = '/' then [] :: r
    else
      match r with
      | [] => [[c]]
      | h :: t => (c :: h) :: t

/-- The path components pathlib keeps: empty components and single dots
are dropped. -/
def pathParts (s : String) : List (List Char) :=
  (splitSlash s.data).filter (fun comp => comp ≠ [] && comp ≠ ['.'])

/-- Whether a path string is absolute. -/
def isAbsolutePath (s : String) : Bool :=
  match s.data with
  | '/' :: _ => true
  | _ => false

/-- The expname path check of Association.validate (association.py
lines 228-229): Path(expname).parent differs from Path() exactly when
the name is absolute or has at least two components. -/
def hasPathInfo (s : String) : Bool :=
  isAbsolutePath s || decide (2 ≤ (pathParts s).length)

/-- All members of all products of a document, in order, as iterated by
Association.validate (association.py lines 225-227). -/
def allMembers (d : AsnData) : List Member :=
  (d.products.map (fun p => p.members)).flatten

/-- The warning text issued for an expname carrying path information
(association.py lines 230-234). -/
def pathWarnMsg : String :=
  "Input association file contains path information"

/-- The warnings collected by the expname loop of Association.validate:
one per member whose expname carries path information; the warnings are
non-fatal. -/
def pathWarnings (d : AsnData) : List String :=
  (allMembers d).filterMap
    (fun m => if hasPathInfo m.expname then some pathWarnMsg else none)

/-- Errors surfaced by the serialization and validation layer:
AssociationNotValidError, and the KeyError of an unknown format
keyword in the IO registry. -/
inductive AsnError where
  | notValid
  | keyError
deriving DecidableEq, Repr

/-- Association.validate (association.py lines 179-235), over the
document data.  The schema check itself evaluates an external schema
document (out of scope per spec section 6) and is passed in as the
predicate schemaOk; a rule without a schema_file logs a warning and
presumes the association valid; a schema failure raises
AssociationNotValidError; otherwise the expname path warnings are
gathered and validation returns True (the ok payload lists the
warnings issued). -/
def Association.validate (schemaOk : AsnData → Bool) (hasSchema : Bool)
    (d : AsnData) : Except AsnError (List String) :=
  if !hasSchema then .ok ["Cannot validate: no schema. Presuming OK."]
  else if !(schemaOk d) then .error .notValid
  else .ok (pathWarnings d)

/-- Association.is_valid (association.py lines 331-345): validate and
catch AssociationNotValidError, reporting a boolean. -/
def Association.is_valid (schemaOk : AsnData → Bool) (hasSchema : Bool)
    (d : AsnData) : Bool :=
  match Association.validate schemaOk hasSchema d with
  | .ok _ => true
  | .error _ => false

/-- Association.finalize (association.py lines 458-476): return the
one-element list containing the association when it is valid, None
otherwise; never raises. -/
def Association.finalize (schemaOk : AsnData → Bool) (hasSchema : Bool)
    (a : Association) : Option (List Association) :=
  if Association.is_valid schemaOk hasSchema a.data then some [a] else none

/-- Keyword lookup into a registry list (KeyValueRegistry subscript:
first entry with the key wins, none is the KeyError case). -/
def lookupReg {α : Type} (l : List (String × α)) (key : String) : Option α :=
  match l with
  | [] => none
  | (k, v) :: rest => if k == key then some v else lookupReg rest key

/-- Association.dump (association.py lines 237-270): the format
defaults to json; a valid association is delegated to the registered
serializer of that format, an invalid one raises
AssociationNotValidError. -/
def Association.dump (dumpers : List (String × (AsnData → String)))
    (schemaOk : AsnData → Bool) (hasSchema : Bool) (d : AsnData)
    (fmt : Option String) : Except AsnError String :=
  let f := fmt.getD "json"
  if Association.is_valid schemaOk hasSchema d then
    match lookupReg dumpers f with
    | some dumpFn => .ok (dumpFn d)
    | none => .error .keyError
  else
    .error .notValid

/-- The for-else loop of Association.load (association.py lines
315-323): try each format in order; a parser returning none is the
AssociationNotValidError that is caught and skipped; the first
successful parse breaks the loop. -/
def loadLoop (formats : List (String → Option AsnData)) (s : String) :
    Option AsnData :=
  match formats with
  | [] => none
  | p :: rest =>
    match p s with
    | some a => some a
    | none => loadLoop rest s

/-- Association.load (association.py lines 272-329): with no format
given, every registered format is tried in registration order; with a
format given, only that parser is consulted (an unknown keyword is the
KeyError of the registry subscript); exhausting all candidates raises
AssociationNotValidError; on success the association is validated when
requested. -/
def Association.load (registry : List (String × (String → Option AsnData)))
    (schemaOk : AsnData → Bool) (hasSchema : Bool) (serialized : String)
    (fmt : Option String) (doValidate : Bool) : Except AsnError AsnData :=
  match fmt with
  | none =>
    match loadLoop (registry.map (fun e => e.2)) serialized with
    | none => .error .notValid
    | some d =>
      if doValidate then
        match Association.validate schemaOk hasSchema d with
        | .ok _ => .ok d
        | .error e => .error e
      else .ok d
  | some f =>
    match lookupReg registry f with
    | none => .error .keyError
    | some p =>
      match loadLoop [p] serialized with
      | none => .error .notValid
      | some d =>
        if doValidate then
          match Association.validate schemaOk hasSchema d with
          | .ok _ => .ok d
          | .error e => .error e
        else .ok d

/-- The auto-detection described by the spec for load with no format:
the result of the first registered parser that succeeds. -/
def firstSuccessfulParse (parsers : List (String → Option AsnData))
    (s : String) : Option AsnData :=
  parsers.findSome? (fun p => p s)

/-! Concrete fixtures used by the witnesses and counterexamples. -/

/-- An initial document with one empty product, as a rule sets it up
before the first member arrives. -/
def emptyDoc : AsnData :=
  { asn_type := "None", asn_rule := "Asn_Demo", version_id := none,
    code_version := "0.0.0", products := [{ name := "product_one", members := [] }] }

/-- A tree whose attribute constraint is unbound and whose force_match
simple constraint is bound to False. -/
def asnC1 : Association :=
  { data := emptyDoc, run_init_hook := true, accepted_items := [],
    constraints := .comp
      (CForest.ofList
        [.attr { name := some "filter", sources := ["filter"], value := none,
                 required := true, force_unique := some true, found_values := [] },
         .simple (some "force_match") (some (.bool false)) (.bool false) true])
      .all }

/-- An item the tree of asnC1 accepts. -/
def itemC1 : Item :=
  [("filter", "f090w"), ("expname", "member1.fits"), ("exptype", "science")]

/-- An association whose single attribute constraint is already bound to
the escaped value f090w. -/
def asnC1w : Association :=
  { data := emptyDoc, run_init_hook := true, accepted_items := [],
    constraints := .comp
      (CForest.ofList
        [.attr { name := some "filter", sources := ["filter"], value := some "f090w",
                 required := true, force_unique := some false,
                 found_values := ["f090w"] }])
      .all }

/-- An item presenting a different filter value, rejected by asnC1w. -/
def itemC1w : Item := [("filter", "f150w"), ("expname", "member2.fits")]

/-- An unbound conditions record with force_unique explicitly false. -/
def condC2 : Conditions :=
  { inputs := fun _ => "nrs1", value := none, found_values := [],
    force_unique := some false }

/-- An arbitrary item for exercising condC2. -/
def itemC2 : Item := []

/-- An association whose tree accepts the item while its force_match
constraint is bound to False. -/
def asnC3f : Association :=
  { data := emptyDoc, run_init_hook := true, accepted_items := [],
    constraints := .comp
      (CForest.ofList
        [.attr { name := some "detector", sources := ["detector"], value := none,
                 required := true, force_unique := some true, found_values := [] },
         .simple (some "force_match") (some (.bool false)) (.bool false) true])
      .all }

/-- An item the tree of asnC3f accepts. -/
def itemC3f : Item := [("detector", "nrca1"), ("expname", "m3f.fits")]

/-- An association whose tree rejects the item while its force_match
constraint is bound to True. -/
def asnC3t : Association :=
  { data := emptyDoc, run_init_hook := true, accepted_items := [],
    constraints := .comp
      (CForest.ofList
        [.attr { name := some "detector", sources := ["detector"], value := some "nrca1",
                 required := true, force_unique := some false,
                 found_values := ["nrca1"] },
         .simple (some "force_match") (some (.bool true)) (.bool true) true])
      .all }

/-- An item presenting a detector the bound constraint of asnC3t
rejects. -/
def itemC3t : Item := [("detector", "nrcb2"), ("expname", "m3t.fits")]

/-- An item already accepted by asnC4. -/
def itemC4 : Item := [("expname", "m4.fits")]

/-- An association that already contains itemC4. -/
def asnC4 : Association :=
  { data := emptyDoc, run_init_hook := false, accepted_items := [itemC4],
    constraints := .comp CForest.nil .all }

/-- A conditions record with force_unique set, reading the filter
attribute. -/
def condC5 : Conditions :=
  { inputs := fun it => (itemLookup it "filter").getD "", value := none,
    found_values := [], force_unique := some true }

/-- First item for condC5. -/
def itemC5a : Item := [("filter", "f090w")]

/-- Second item for condC5, presenting a different filter. -/
def itemC5b : Item := [("filter", "f150w")]

/-- A structurally sound association used with an always-true schema
check. -/
def asnC6 : Association :=
  { data := emptyDoc, run_init_hook := true, accepted_items := [],
    constraints := .comp CForest.nil .all }

/-- A document one of whose member expnames carries a directory
component. -/
def docC9 : AsnData :=
  { asn_type := "image3", asn_rule := "Asn_Image", version_id := none,
    code_version := "1.0.0",
    products := [{ name := "p1",
                   members := [{ expname := "subdir/m9.fits", exptype := "science" }] }] }

/-- An association with no accepted items. -/
def asnC10 : Association :=
  { data := emptyDoc, run_init_hook := true, accepted_items := [],
    constraints := .comp CForest.nil .all }

/-- An item that is not a member of asnC10. -/
def itemC10 : Item := [("expname", "m10.fits")]

/-! Helper lemmas. -/

theorem unescapeList_escapeList (l : List Char) :
    unescapeList (escapeList l) = some l := by
  induction l with
  | nil => rfl
  | cons c rest ih =>
    by_cases h : (c.isAlphanum || c == '_') = true
    · have hne : ¬(c = '\\') := by
        intro hc
        subst hc
        simp [Char.isAlphanum, Char.isAlpha, Char.isDigit, Char.isUpper, Char.isLower] at h
      rw [escapeList]
      simp only [escapeChar, h, if_true, List.singleton_append]
      rw [unescapeList.eq_def]
      simp [hne, ih]
    · rw [escapeList]
      simp only [escapeChar, h]
      rw [unescapeList.eq_def]
      simp [ih]

theorem reEscape_injective {s1 s2 : String} (h : reEscape s1 = reEscape s2) : s1 = s2 := by
  have hdata : escapeList s1.data = escapeList s2.data := by
    have := congrArg String.data h
    simpa [reEscape] using this
  have hsome : some s1.data = some s2.data := by
    rw [← unescapeList_escapeList s1.data, ← unescapeList_escapeList s2.data, hdata]
  have hdd : s1.data = s2.data := Option.some.inj hsome
  cases s1
  cases s2
  exact congrArg String.mk hdd

theorem csc_restore (a : Association) (item : Item)
    (h : (a.check_and_set_constraints item).1 = false) :
    (a.check_and_set_constraints item).2.2 = a := by
  simp only [Association.check_and_set_constraints] at h ⊢
  rw [h]
  simp

theorem acceptItem_constraints (b : Association) (item : Item) :
    (b.acceptItem item).constraints = b.constraints := by
  unfold Association.acceptItem Association._add Association._init_hook
  by_cases h : b.run_init_hook <;> simp [h]

theorem acceptItem_is_member (b : Association) (item : Item) :
    (b.acceptItem item).is_item_member item = true := by
  unfold Association.acceptItem Association._add Association._init_hook
    Association.is_item_member
  by_cases h : b.run_init_hook <;> simp [h]

theorem forceOverride_eq (t : CTree) (m : Bool) (v : CVal)
    (h : (t.findByName "force_match").bind CTree.value = some v) :
    forceOverride t m = v.truthy := by
  unfold forceOverride
  rw [h]

theorem firstSuccessfulParse_eq_loadLoop (ps : List (String → Option AsnData))
    (s : String) : firstSuccessfulParse ps s = loadLoop ps s := by
  induction ps with
  | nil => rfl
  | cons p rest ih =>
    unfold firstSuccessfulParse at ih ⊢
    rw [List.findSome?_cons]
    cases hp : p s with
    | none => rw [loadLoop, hp, ih]
    | some d => rw [loadLoop, hp]

theorem pathWarnings_ne_nil_of_any (l : List Member)
    (h : l.any (fun m => hasPathInfo m.expname) = true) :
    l.filterMap (fun m => if hasPathInfo m.expname then some pathWarnMsg else none)
      ≠ [] := by
  induction l with
  | nil => simp at h
  | cons m rest ih =>
    by_cases hm : hasPathInfo m.expname = true
    · simp [List.filterMap_cons, hm]
    · have hmf : hasPathInfo m.expname = false := by
        cases hb : hasPathInfo m.expname
        · rfl
        · exact absurd hb hm
      rw [List.any_cons, hmf, Bool.false_or] at h
      simp [List.filterMap_cons, hmf, ih h]

/-! Claim theorems. -/

/-- Claim C10: calling Association.add with check_constraints false on
an item that is not already a member never returns normally: the
reprocess list is only assigned inside the constraint-checking branch,
so the final return reads an unbound local and raises, for every such
item. -/
theorem c10_add_unchecked_raises (a : Association) (item : Item)
    (h : a.is_item_member item = false) :
    a.add item false = .error .unboundLocalReprocess := by
  simp [Association.add, h]

/-- Witness for C10 at a concrete association and non-member item. -/
theorem c10_add_unchecked_raises_witness :
    asnC10.add itemC10 false = .error .unboundLocalReprocess :=
  c10_add_unchecked_raises asnC10 itemC10 (by decide)

/-- Counterexample to claim C1 as stated: this item is rejected by add
(the returned match is false, forced by the bound force_match
constraint), and yet the document has been mutated: the tree itself
matched, so the item was merged into the product members before the
force_match override flipped the result. -/
theorem c1_counterexample :
    addResultMatch (asnC1.add itemC1 true) = some false
    ∧ (addResultAsn (asnC1.add itemC1 true)).map Association.data
        ≠ some asnC1.data := by
  constructor
  · rfl
  · decide

/-- Claim C1 as amended: for every item that the constraint-tree
evaluation itself rejects (check_and_set_constraints returns false),
the Association state observable after add is identical to the state
before: the restore discards every binding of the failed attempt and
the document is untouched.  (The counterexample shows the amendment is
needed: an item accepted by the tree but vetoed by a bound force_match
is merged before add returns false.) -/
theorem c1_tree_rejected_state_unchanged (a : Association) (item : Item)
    (h : (a.check_and_set_constraints item).1 = false) :
    addResultAsn (a.add item true) = some a := by
  by_cases hm : a.is_item_member item = true
  · simp [Association.add, hm, addResultAsn]
  · rw [Bool.not_eq_true] at hm
    have hres := csc_restore a item h
    simp [Association.add, hm, h, hres, addResultAsn]

/-- Witness for the amended C1: a concrete association with a bound
attribute constraint rejects an item with a different attribute value
and its state is returned unchanged. -/
theorem c1_tree_rejected_state_unchanged_witness :
    addResultAsn (asnC1w.add itemC1w true) = some asnC1w :=
  c1_tree_rejected_state_unchanged asnC1w itemC1w (by decide)

/-- Counterexample to claim C2 as stated: with force_unique = false an
unbound constraint matches, but its expected value does not stay
unbound: match_constraint binds it whenever the value is None (the
or-condition at association.py line 451 short-circuits on value is
None before force_unique is consulted). -/
theorem c2_counterexample :
    condC2.force_unique = some false
    ∧ (matchConstraint condC2 itemC2).1 = true
    ∧ ((matchConstraint condC2 itemC2).2.2).value ≠ none := by
  refine ⟨rfl, rfl, ?_⟩
  decide

/-- Claim C2 as amended: an unbound constraint (value = None) always
matches, and on match it always binds the expected value to the
resolved value escaped as a literal-match pattern - regardless of
force_unique, which is then cleared to false - and records the escaped
value in found_values. -/
theorem c2_unbound_always_binds (c : Conditions) (item : Item)
    (h : c.value = none) :
    matchConstraint c item =
      (true, [],
        { c with value := some (reEscape (c.inputs item)),
                 found_values := setInsert (reEscape (c.inputs item)) c.found_values,
                 force_unique := some false }) := by
  obtain ⟨inputs, value, fv, fu⟩ := c
  cases h
  rfl

/-- Witness for the amended C2 at a concrete unbound conditions record
with force_unique = false. -/
theorem c2_unbound_always_binds_witness :
    matchConstraint condC2 itemC2 =
      (true, [],
        { condC2 with value := some (reEscape (condC2.inputs itemC2)),
                      found_values :=
                        setInsert (reEscape (condC2.inputs itemC2)) condC2.found_values,
                      force_unique := some false }) :=
  c2_unbound_always_binds condC2 itemC2 rfl

/-- Claim C3: if the constraint tree contains a node named force_match
whose value is bound (not None, here to a boolean) after evaluation,
the boolean result returned by Association.add equals that value,
overriding the tree result in both directions. -/
theorem c3_force_match_override (a : Association) (item : Item) (b : Bool)
    (hmem : a.is_item_member item = false)
    (hfm : ((((a.check_and_set_constraints item).2.2).constraints.findByName
        "force_match").bind CTree.value) = some (CVal.bool b)) :
    addResultMatch (a.add item true) = some b := by
  have hover : ∀ m : Bool,
      forceOverride
        (if (a.check_and_set_constraints item).1 then
          (((a.check_and_set_constraints item).2.2).acceptItem item).constraints
         else ((a.check_and_set_constraints item).2.2).constraints) m = b := by
    intro m
    by_cases hr : (a.check_and_set_constraints item).1 = true
    · rw [hr, if_pos rfl, acceptItem_constraints]
      exact forceOverride_eq _ m _ hfm
    · rw [Bool.not_eq_true] at hr
      rw [hr]
      simp only [Bool.false_eq_true, if_false]
      exact forceOverride_eq _ m _ hfm
  by_cases hr : (a.check_and_set_constraints item).1 = true
  · have := hover (a.check_and_set_constraints item).1
    rw [hr, if_pos rfl] at this
    simp [Association.add, hmem, hr, addResultMatch, this]
  · rw [Bool.not_eq_true] at hr
    have := hover (a.check_and_set_constraints item).1
    rw [hr] at this
    simp only [Bool.false_eq_true, if_false] at this
    simp [Association.add, hmem, hr, addResultMatch, this]

/-- Witness for C3, in both directions: a bound-False force_match turns
a tree match into a rejection, and a bound-True force_match turns a
tree rejection into an acceptance. -/
theorem c3_force_match_override_witness :
    addResultMatch (asnC3f.add itemC3f true) = some false
    ∧ addResultMatch (asnC3t.add itemC3t true) = some true :=
  ⟨c3_force_match_override asnC3f itemC3f false (by decide) (by decide),
   c3_force_match_override asnC3t itemC3t true (by decide) (by decide)⟩


/-- Evaluation shape of Association.add for a non-member item with
constraint checking on. -/
theorem add_eval (a : Association) (item : Item)
    (hm : a.is_item_member item = false) :
    a.add item true = .ok
      (forceOverride
        (if (a.check_and_set_constraints item).1 then
          ((a.check_and_set_constraints item).2.2).acceptItem item
         else (a.check_and_set_constraints item).2.2).constraints
        (a.check_and_set_constraints item).1,
       (a.check_and_set_constraints item).2.1,
       (if (a.check_and_set_constraints item).1 then
          ((a.check_and_set_constraints item).2.2).acceptItem item
        else (a.check_and_set_constraints item).2.2)) := by
  unfold Association.add
  rw [hm]
  simp

/-- Claim C4: Association.add is idempotent.  A member item returns
(true, []) at once with the state untouched, and two successive add
calls with the same item end in the same Association state as one
call. -/
theorem c4_add_idempotent (a : Association) (item : Item)
    (b b2 : Bool) (r r2 : List Reprocess) (a1 a2 : Association)
    (h1 : a.add item true = .ok (b, r, a1))
    (h2 : a1.add item true = .ok (b2, r2, a2)) :
    a2 = a1 ∧ (a.is_item_member item = true → b = true ∧ r = [] ∧ a1 = a) := by
  by_cases hm : a.is_item_member item = true
  · have e1 : a.add item true = .ok (true, ([] : List Reprocess), a) := by
      simp [Association.add, hm]
    have h3 : (b, r, a1) = (true, ([] : List Reprocess), a) :=
      Except.ok.inj (h1.symm.trans e1)
    have hb : b = true := congrArg Prod.fst h3
    have hr : r = [] := congrArg (fun x => x.2.1) h3
    have ha : a1 = a := congrArg (fun x => x.2.2) h3
    have e2 : a1.add item true = .ok (true, ([] : List Reprocess), a1) := by
      rw [ha]
      simp [Association.add, hm]
    have h4 : (b2, r2, a2) = (true, ([] : List Reprocess), a1) :=
      Except.ok.inj (h2.symm.trans e2)
    have ha2 : a2 = a1 := congrArg (fun x => x.2.2) h4
    exact ⟨ha2, fun _ => ⟨hb, hr, ha⟩⟩
  · rw [Bool.not_eq_true] at hm
    refine ⟨?_, fun hmem => by rw [hm] at hmem; exact absurd hmem (by simp)⟩
    have e1 := add_eval a item hm
    have h3 := Except.ok.inj (h1.symm.trans e1)
    have ha1 : a1 =
        (if (a.check_and_set_constraints item).1 then
          ((a.check_and_set_constraints item).2.2).acceptItem item
         else (a.check_and_set_constraints item).2.2) :=
      congrArg (fun x => x.2.2) h3
    by_cases hr1 : (a.check_and_set_constraints item).1 = true
    · rw [if_pos hr1] at ha1
      have hmem1 : a1.is_item_member item = true := by
        rw [ha1]
        exact acceptItem_is_member _ _
      have e2 : a1.add item true = .ok (true, ([] : List Reprocess), a1) := by
        simp [Association.add, hmem1]
      have h4 : (b2, r2, a2) = (true, ([] : List Reprocess), a1) :=
        Except.ok.inj (h2.symm.trans e2)
      exact congrArg (fun x => x.2.2) h4
    · have hr1f : (a.check_and_set_constraints item).1 = false := by
        cases hb : (a.check_and_set_constraints item).1
        · rfl
        · exact absurd hb hr1
      rw [if_neg (by rw [hr1f]; simp)] at ha1
      rw [csc_restore a item hr1f] at ha1
      subst ha1
      have h5 := Except.ok.inj (h1.symm.trans h2)
      exact (congrArg (fun x => x.2.2) h5).symm

/-- Witness for C4: re-adding an already accepted item returns
(true, []) and the state is unchanged. -/
theorem c4_add_idempotent_witness :
    asnC4 = asnC4
    ∧ (asnC4.is_item_member itemC4 = true
        → true = true ∧ ([] : List Reprocess) = [] ∧ asnC4 = asnC4) :=
  c4_add_idempotent asnC4 itemC4 true true [] [] asnC4 asnC4 (by rfl) (by rfl)

/-- Claim C5: once a force_unique constraint matches and binds the
resolved value of some item, every later item presenting a different
resolved value for that constraint fails its match. -/
theorem c5_force_unique_binding_rejects (c : Conditions) (item1 item2 : Item)
    (hfu : c.force_unique.getD DEFAULT_FORCE_UNIQUE = true)
    (h1 : (matchConstraint c item1).1 = true)
    (hne : c.inputs item2 ≠ c.inputs item1) :
    (matchConstraint ((matchConstraint c item1).2.2) item2).1 = false := by
  have hstate : ((matchConstraint c item1).2.2).value
        = some (reEscape (c.inputs item1))
      ∧ ((matchConstraint c item1).2.2).inputs = c.inputs := by
    cases hv : c.value with
    | none =>
      simp only [matchConstraint, hv]
      exact ⟨rfl, rfl⟩
    | some v =>
      by_cases hmc : meetsConditions (c.inputs item1) v = true
      · simp only [matchConstraint, hv, hmc, Bool.not_true, Bool.false_eq_true,
          if_false, Option.isSome_some, Option.isNone_some, Bool.false_or, hfu,
          if_pos rfl]
        exact ⟨rfl, rfl⟩
      · exfalso
        have hmcf : meetsConditions (c.inputs item1) v = false := by
          cases hb : meetsConditions (c.inputs item1) v
          · rfl
          · exact absurd hb hmc
        simp [matchConstraint, hv, hmcf] at h1
  obtain ⟨hval, hinp⟩ := hstate
  have hneq : reEscape (c.inputs item2) ≠ reEscape (c.inputs item1) :=
    fun hh => hne (reEscape_injective hh)
  have hbeq : (reEscape (c.inputs item2) == reEscape (c.inputs item1)) = false := by
    rw [beq_eq_false_iff_ne]
    exact hneq
  generalize hgen : (matchConstraint c item1).2.2 = c2 at hval hinp ⊢
  simp [matchConstraint, hval, hinp, meetsConditions, hbeq]

/-- Witness for C5: the filter constraint binds f090w from the first
item and then rejects an item presenting f150w. -/
theorem c5_force_unique_binding_rejects_witness :
    (matchConstraint ((matchConstraint condC5 itemC5a).2.2) itemC5b).1 = false :=
  c5_force_unique_binding_rejects condC5 itemC5a itemC5b (by decide) (by decide)
    (by decide)

/-- Counterexample to claim C6 as stated: finalize does not return self
for a valid association; it returns the one-element list containing
self (association.py line 474 returns [self]), a different object from
self. -/
theorem c6_counterexample :
    Association.finalize (fun _ => true) true asnC6 = some [asnC6]
    ∧ (Association.finalize (fun _ => true) true asnC6).map List.length = some 1 :=
  ⟨rfl, rfl⟩

/-- Claim C6 as amended: finalize runs validation and returns the
singleton list containing the association when it is valid and None
when it is not; it never raises for an invalid-but-structurally-sound
association (the validation failure is absorbed by is_valid and turned
into None). -/
theorem c6_finalize_list_or_none (schemaOk : AsnData → Bool) (hasSchema : Bool)
    (a : Association) :
    Association.finalize schemaOk hasSchema a =
      match Association.validate schemaOk hasSchema a.data with
      | .ok _ => some [a]
      | .error _ => none := by
  unfold Association.finalize Association.is_valid
  cases Association.validate schemaOk hasSchema a.data <;> simp

/-- Claim C7: load with no format tries every registered format in
registration order and returns the result of the first parser that
does not fail with AssociationNotValidError; when every format fails
the error is surfaced to the caller; with a format given only that
parser is consulted. -/
theorem c7_load_format_selection
    (registry : List (String × (String → Option AsnData)))
    (schemaOk : AsnData → Bool) (s : String) (dv : Bool) (f : String) :
    (Association.load registry schemaOk false s none dv =
      match firstSuccessfulParse (registry.map (fun e => e.2)) s with
      | some d => .ok d
      | none => .error .notValid)
    ∧ (Association.load registry schemaOk false s (some f) dv =
      match lookupReg registry f with
      | none => .error .keyError
      | some p =>
        match p s with
        | some d => .ok d
        | none => .error .notValid) := by
  constructor
  · unfold Association.load
    rw [firstSuccessfulParse_eq_loadLoop]
    cases h : loadLoop (registry.map (fun e => e.2)) s with
    | none => rfl
    | some d => cases dv <;> simp [Association.validate]
  · unfold Association.load
    cases hl : lookupReg registry f with
    | none => simp [hl]
    | some p =>
      cases hp : p s with
      | none => simp [hl, loadLoop, hp]
      | some d => cases dv <;> simp [hl, loadLoop, hp, Association.validate]

/-- Claim C8: dump requires the association to already be valid: a
validating association is delegated to the registered serializer of
the requested format (default json); otherwise dump raises
AssociationNotValidError, surfaced to the caller. -/
theorem c8_dump_requires_valid (dumpers : List (String × (AsnData → String)))
    (schemaOk : AsnData → Bool) (hasSchema : Bool) (d : AsnData)
    (fmt : Option String) :
    Association.dump dumpers schemaOk hasSchema d fmt =
      match Association.validate schemaOk hasSchema d with
      | .error _ => .error .notValid
      | .ok _ =>
        match lookupReg dumpers (fmt.getD "json") with
        | some dumpFn => .ok (dumpFn d)
        | none => .error .keyError := by
  unfold Association.dump Association.is_valid
  cases Association.validate schemaOk hasSchema d <;> simp

/-- Claim C9: validation of an association whose member expname
contains a directory path component issues a non-fatal warning but
still succeeds: validate returns True (with the warnings as payload)
and is_valid is true, assuming the association is otherwise
schema-valid. -/
theorem c9_path_warning_not_failure (schemaOk : AsnData → Bool) (d : AsnData)
    (h1 : schemaOk d = true)
    (h2 : (allMembers d).any (fun m => hasPathInfo m.expname) = true) :
    Association.is_valid schemaOk true d = true
    ∧ Association.validate schemaOk true d = .ok (pathWarnings d)
    ∧ pathWarnings d ≠ [] := by
  refine ⟨?_, ?_, ?_⟩
  · unfold Association.is_valid Association.validate
    simp [h1]
  · unfold Association.validate
    simp [h1]
  · unfold pathWarnings
    exact pathWarnings_ne_nil_of_any _ h2

/-- Witness for C9: a document with the member expname
subdir/m9.fits validates with a warning under an always-true schema
check. -/
theorem c9_path_warning_not_failure_witness :
    Association.is_valid (fun _ => true) true docC9 = true
    ∧ Association.validate (fun _ => true) true docC9 = .ok (pathWarnings docC9)
    ∧ pathWarnings docC9 ≠ [] :=
  c9_path_warning_not_failure (fun _ => true) docC9 rfl (by decide)
